import Mathlib

/-!
Verification of the progress-check backend (Python sources under
`backend/`): the follow-up-question response parser, the AI question
generation fallback contract, the timestamp extractor, the
yesterday's-plans lookup (`backend/ai_service.py`), the two-stage
(temporary → permanent) work-update store (`backend/database.py`,
`backend/main.py`) and the follow-up session lifecycle.

Modelling conventions:
* Python strings are Lean `String`s (`List Char` underneath); Python
  `str.strip()` is `pyStrip` over the ASCII whitespace characters that
  occur in this system's data.
* Python `datetime` values are modelled at calendar-day granularity as
  `Int` day ordinals (every behaviour the verified claims mention —
  "yesterday", "today minus one calendar day", date equality — is at
  day granularity); `dateutil.parser.parse` is modelled on ISO
  `YYYY-MM-DD` strings, the format this system writes.
* MongoDB collections are lists of documents; `_id` uniqueness is the
  store's own guarantee and is carried as an explicit hypothesis
  (`uniqueIds`).  `find_one` is `List.find?`, `replace_one`/`update_one`
  replace or modify the first matching document, `delete_one` removes it.
* A Python value that may be `None` where the code also distinguishes a
  missing key is modelled as `Option (Option _)`: `none` = key absent,
  `some none` = key present holding `None`, `some (some v)` = value `v`.
* Exceptions are `Except`; external effects (the MongoDB driver, the
  Gemini model call) enter as explicit outcome parameters, so "the
  operation never raises" is the totality of the Lean function.
-/

/-! ## Python string primitives -/

/-- The whitespace characters of Python's `str.strip()` / `\s`
(restricted to ASCII, the alphabet of this system's data). -/
def isPyWs (c : Char) : Bool :=
  c == ' ' || c == '\t' || c == '\n' || c == '\r' || c == '\x0b' || c == '\x0c'

/-- Python `str.strip()` on a character list. -/
def pyStripL (cs : List Char) : List Char :=
  ((cs.dropWhile isPyWs).reverse.dropWhile isPyWs).reverse

/-- Python `str.strip()`. -/
def pyStrip (s : String) : String := ⟨pyStripL s.data⟩

/-- Python `str.split('\n')`: splits on every newline, keeping empty
pieces, so the empty string yields `[""]`. -/
def splitLinesL : List Char → List (List Char)
  | [] => [[]]
  | c :: cs =>
    if c = '\n' then [] :: splitLinesL cs
    else
      match splitLinesL cs with
      | l :: ls => (c :: l) :: ls
      | [] => [[c]]

/-- Python `response.split('\n')`. -/
def splitLines (s : String) : List String := (splitLinesL s.data).map (⟨·⟩)

/-- Does `pre` start the list `cs`? (Python `str.startswith`.) -/
def startsWithL : List Char → List Char → Bool
  | [], _ => true
  | _ :: _, [] => false
  | p :: ps, c :: cs => p == c && startsWithL ps cs

/-- Python `str.startswith`. -/
def pyStartsWith (s pre : String) : Bool := startsWithL pre.data s.data

/-- Python `str.endswith`. -/
def pyEndsWith (s suf : String) : Bool := startsWithL suf.data.reverse s.data.reverse

/-- Python `c in s` for a single character. -/
def containsCharL (c : Char) (cs : List Char) : Bool := cs.any (· == c)

/-- Python `str.lower()` (ASCII, the alphabet of the parsed replies). -/
def lowerL (cs : List Char) : List Char := cs.map Char.toLower

/-- Python `needle in hay` (contiguous substring, true for the empty
needle). -/
def containsSubL (needle : List Char) : List Char → Bool
  | [] => needle.isEmpty
  | c :: cs => startsWithL needle (c :: cs) || containsSubL needle cs

/-- Python `trimmed.split(':', 1)[-1]`: the text after the first colon, or
`none` when there is no colon (Python then yields the whole string). -/
def afterFirstColonL : List Char → Option (List Char)
  | [] => none
  | c :: cs => if c = ':' then some cs else afterFirstColonL cs

/-! ## The response parser (`ai_service._parse_questions_from_response`) -/

/-- The marker test `re.match(r'^\d+[.\)]\s*', trimmed)`: a leading run of digits, then
`.` or `)`, then whitespace; returns the rest of the line when the
marker matches. -/
def stripNumMarker (cs : List Char) : Option (List Char) :=
  let digits := cs.takeWhile Char.isDigit
  let rest := cs.dropWhile Char.isDigit
  if digits.isEmpty then none
  else
    match rest with
    | c :: r => if c = '.' ∨ c = ')' then some (r.dropWhile isPyWs) else none
    | [] => none

/-- The substitution `re.sub(r'^\d+[.\)]\s*', '', trimmed)` (anchored, so at most one
replacement at the start). -/
def subNumMarker (cs : List Char) : List Char := (stripNumMarker cs).getD cs

/-- One attempted match of `\*\*.*?\*\*:\s*` past its opening `**`: the
lazy `.*?` (no newline) runs to the first `**:`, then trailing
whitespace is consumed.  Returns what follows the match. -/
def findBoldClose : List Char → Option (List Char)
  | '*' :: '*' :: ':' :: r => some (r.dropWhile isPyWs)
  | c :: r => if c = '\n' then none else findBoldClose r
  | [] => none

/-- A match of `\*\*.*?\*\*:\s*` at the head of `cs`. -/
def matchBoldColonAt (cs : List Char) : Option (List Char) :=
  match cs with
  | '*' :: '*' :: rest => findBoldClose rest
  | _ => none

/-- The substitution `re.sub(r'\*\*.*?\*\*:\s*', '', s)`, scanning left to right and
continuing after each non-overlapping match.  The fuel argument (the
remaining length) only makes the structural recursion visible: every
match consumes at least five characters, so fuel `cs.length` never runs
out. -/
def subBoldColonGo : Nat → List Char → List Char
  | 0, cs => cs
  | _ + 1, [] => []
  | fuel + 1, c :: cs =>
    match matchBoldColonAt (c :: cs) with
    | some rest => subBoldColonGo fuel rest
    | none => c :: subBoldColonGo fuel cs

/-- The substitution `re.sub(r'\*\*.*?\*\*:\s*', '', s)`. -/
def subBoldColon (cs : List Char) : List Char := subBoldColonGo cs.length cs

/-- The fixed default question list (`ai_service._get_default_questions`). -/
def _get_default_questions : List String :=
  ["What technical challenges did you face this week that you'd like help with?",
   "Have you encountered any bugs or issues that are taking longer than expected to resolve?",
   "What new skills or concepts have you learned recently that you'd like to discuss?"]

/-- Method 1 of the parser, one line: a line whose stripped form starts
with `**Question Text**` contributes the stripped text after its first
colon when that text is non-empty and longer than 10 characters. -/
def structuredStep (acc : List String) (line : String) : List String :=
  let trimmed := pyStrip line
  if pyStartsWith trimmed "**Question Text**" then
    let question : String := ⟨pyStripL ((afterFirstColonL trimmed.data).getD trimmed.data)⟩
    if question ≠ "" ∧ question.length > 10 then acc ++ [question] else acc
  else acc

/-- Method 2 of the parser, one line: a stripped line with a leading
`<digits>.`/`<digits>)` marker contributes the marker-stripped,
bold-label-stripped text when non-empty and longer than 10 characters. -/
def numberedStep (acc : List String) (line : String) : List String :=
  let trimmed := pyStripL line.data
  match stripNumMarker trimmed with
  | none => acc
  | some rest =>
    let question : String := ⟨subBoldColon (pyStripL rest)⟩
    if question ≠ "" ∧ question.length > 10 then acc ++ [question] else acc

/-- Method 3 of the parser: scan the lines for free-form questions
(`?` present, longer than 15 characters, not a heading), strip
numbering and bold decoration, drop case-insensitive substring
near-repeats, and stop once 3 are collected. -/
def patternPass (lines : List String) (acc : List String) : List String :=
  match lines with
  | [] => acc
  | line :: rest =>
    if acc.length ≥ 3 then acc
    else
      let trimmed := pyStrip line
      if trimmed = "" ∨ pyStartsWith trimmed "#" ∨
          (pyStartsWith trimmed "**" ∧ ¬ pyEndsWith trimmed "?") then
        patternPass rest acc
      else if containsCharL '?' trimmed.data ∧ trimmed.length > 15 then
        let question : String := ⟨pyStripL (subBoldColon (subNumMarker trimmed.data))⟩
        if question ≠ "" ∧
            ¬ acc.any (fun q => containsSubL (lowerL q.data) (lowerL question.data)) then
          patternPass rest (acc ++ [question])
        else patternPass rest acc
      else patternPass rest acc

/-- The three extraction passes of `_parse_questions_from_response`:
method 2 runs only when method 1 collected fewer than 3, method 3 only
when method 2 still had fewer than 3 (each later method resets the
list, as the source does). -/
def collectQuestions (lines : List String) : List String :=
  let questions := lines.foldl structuredStep []
  let questions := if questions.length < 3 then lines.foldl numberedStep [] else questions
  if questions.length < 3 then patternPass lines [] else questions

/-- The post-processing `while` loop: while fewer than 3 questions and
fewer than `len(defaults)`, append `defaults[len(questions)]`.  Three
rounds of fuel suffice: each round grows the list by one and the loop
stops at length 3. -/
def padWithDefaults : Nat → List String → List String
  | 0, qs => qs
  | fuel + 1, qs =>
    if qs.length < 3 ∧ qs.length < _get_default_questions.length then
      padWithDefaults fuel (qs ++ [_get_default_questions.getD qs.length ""])
    else qs

/-- The parser `ai_service._parse_questions_from_response`: collect candidates with
the three passes, truncate to 3 when over, pad from the defaults when
under. -/
def _parse_questions_from_response (response : String) : List String :=
  let questions := collectQuestions (splitLines response)
  if questions.length > 3 then questions.take 3
  else if questions.length < 3 then padWithDefaults 3 questions
  else questions

/-! ## Documents seen by the AI service (`ai_service.py`) -/

/-- The value of a document's `date` field as `_extract_timestamp`
distinguishes it: already a `datetime`, or a string to parse. -/
inductive PyDateField where
  | dt (day : Int)
  | str (s : String)
deriving Repr, DecidableEq

/-- A work-update document as the AI service reads it.  Only the fields
its functions touch are carried.  `submittedAt`/`timestamp`, when the
key is present, hold a datetime (the system always writes one there);
`plans` distinguishes an absent key (`none`), a key holding Python
`None` (`some none`) and a string (`some (some s)`), because
`_extract_yesterday_plans_from_recent_docs` treats the three
differently. -/
structure AiDoc where
  submittedAt : Option Int
  timestamp : Option Int
  date : Option PyDateField
  plans : Option (Option String)
deriving Repr, DecidableEq

/-- A digit run to a number (`none` on empty or non-digit input). -/
def digitsToNat : List Char → Option Nat
  | [] => none
  | cs =>
    if cs.all Char.isDigit then
      some (cs.foldl (fun n c => n * 10 + (c.toNat - 48)) 0)
    else none

/-- Python `str.split(sep)` for a one-character separator. -/
def splitOnCharL (sep : Char) : List Char → List (List Char)
  | [] => [[]]
  | c :: cs =>
    if c = sep then [] :: splitOnCharL sep cs
    else
      match splitOnCharL sep cs with
      | l :: ls => (c :: l) :: ls
      | [] => [[c]]

/-- The day ordinal of a calendar date: consecutive days of one month
map to consecutive ordinals, and distinct valid dates map to distinct
ordinals. -/
def dayOrdinal (y m d : Nat) : Int := (y * 372 + (m - 1) * 31 + (d - 1) : Int)

/-- Models `dateutil.parser.parse` on the date strings this system writes
(ISO `YYYY-MM-DD`, day granularity): `none` models the parse raising. -/
def parseDateStr (s : String) : Option Int :=
  match splitOnCharL '-' s.data with
  | [ys, ms, ds] => do
    let y ← digitsToNat ys
    let m ← digitsToNat ms
    let d ← digitsToNat ds
    if 1 ≤ m ∧ m ≤ 12 ∧ 1 ≤ d ∧ d ≤ 31 then some (dayOrdinal y m d) else none
  | _ => none

/-- The extractor `ai_service._extract_timestamp`: the `submittedAt` field if present,
else `timestamp`, else `date` (taken as-is when a datetime, parsed when
a string, `none` when the parse fails — the exception is caught and
logged).  Total: no exception escapes. -/
def _extract_timestamp (doc : AiDoc) : Option Int :=
  match doc.submittedAt with
  | some t => some t
  | none =>
    match doc.timestamp with
    | some t => some t
    | none =>
      match doc.date with
      | some (.dt t) => some t
      | some (.str s) => parseDateStr s
      | none => none

/-! ## `ai_service._extract_yesterday_plans_from_recent_docs` -/

/-- Python `doc.get('plans', '').strip()`: the empty default when the key is
absent, `AttributeError` (modelled as `Except.error`) when the key
holds `None`, the stripped string otherwise. -/
def getPlansStripped (doc : AiDoc) : Except Unit String :=
  match doc.plans with
  | none => .ok ""
  | some none => .error ()
  | some (some s) => .ok (pyStrip s)

/-- First pass of the lookup: the first record whose resolved date is
exactly yesterday and whose stripped plans are non-empty. -/
def yesterdayPass (yesterday : Int) : List AiDoc → Except Unit (Option String)
  | [] => .ok none
  | doc :: docs =>
    match _extract_timestamp doc with
    | some t =>
      if t = yesterday then
        match getPlansStripped doc with
        | .error e => .error e
        | .ok plans =>
          if plans ≠ "" then .ok (some plans) else yesterdayPass yesterday docs
      else yesterdayPass yesterday docs
    | none => yesterdayPass yesterday docs

/-- Second pass of the lookup: skipping records dated exactly today,
the first record with non-empty stripped plans. -/
def recentPass (today : Int) : List AiDoc → Except Unit (Option String)
  | [] => .ok none
  | doc :: docs =>
    match _extract_timestamp doc with
    | some t =>
      if t = today then recentPass today docs
      else
        match getPlansStripped doc with
        | .error e => .error e
        | .ok plans =>
          if plans ≠ "" then .ok (some plans) else recentPass today docs
    | none =>
      match getPlansStripped doc with
      | .error e => .error e
      | .ok plans =>
        if plans ≠ "" then .ok (some plans) else recentPass today docs

/-- The lookup `ai_service._extract_yesterday_plans_from_recent_docs`: empty list →
sentinel; else the exact-yesterday pass, then the most-recent-non-today
pass, then the sentinel.  `Except.error` models the `AttributeError`
the source raises on a `plans` key holding `None`. -/
def _extract_yesterday_plans_from_recent_docs (recentDocs : List AiDoc) (today : Int) :
    Except Unit String :=
  if recentDocs.isEmpty then .ok "No previous plans found"
  else
    match yesterdayPass (today - 1) recentDocs with
    | .error e => .error e
    | .ok (some plans) => .ok plans
    | .ok none =>
      match recentPass today recentDocs with
      | .error e => .error e
      | .ok (some plans) => .ok plans
      | .ok none => .ok "No previous plans found"

/-- The spec's reading of a record's plans field: the stripped string,
blank when the field is absent. -/
def specPlansText (d : AiDoc) : String :=
  match d.plans with
  | some (some s) => pyStrip s
  | _ => ""

/-- Modelled from the spec (claim C6, section 4.4): the lookup's result
as the spec words it — the plans of a record dated exactly yesterday
with non-blank plans; otherwise the first non-blank plans among records
not dated exactly today; otherwise the sentinel. -/
def specYesterdayPlans (recentDocs : List AiDoc) (today : Int) : String :=
  let firstPass := recentDocs.findSome? fun d =>
    if _extract_timestamp d = some (today - 1) ∧ specPlansText d ≠ "" then
      some (specPlansText d) else none
  match firstPass with
  | some p => p
  | none =>
    let secondPass := recentDocs.findSome? fun d =>
      if _extract_timestamp d ≠ some today ∧ specPlansText d ≠ "" then
        some (specPlansText d) else none
    match secondPass with
    | some p => p
    | none => "No previous plans found"

/-! ## `ai_service.generate_followup_questions` -/

/-- The operation `ai_service.generate_followup_questions`, with its external effects
as explicit outcomes: `historyResult` is the two-collection history
lookup (it can raise), the prompt build runs the embedded
yesterday-plans lookup (the step of the prompt build that can raise on
this system's data), `modelResult` is the Gemini call
(`Except.error` = the call raised; `.ok none` = `response.text` was
`None`).  The surrounding `try/except` turns every failure into the
default question list, so the Lean function is total. -/
def generate_followup_questions
    (historyResult : Except Unit (List AiDoc)) (today : Int)
    (modelResult : Except Unit (Option String)) : List String :=
  match historyResult with
  | .error _ => _get_default_questions
  | .ok recentDocs =>
    match _extract_yesterday_plans_from_recent_docs recentDocs today with
    | .error _ => _get_default_questions
    | .ok _yesterdayPlans =>
      match modelResult with
      | .error _ => _get_default_questions
      | .ok none => _get_default_questions
      | .ok (some text) =>
        if pyStrip text = "" then _get_default_questions
        else
          let questions := _parse_questions_from_response text
          if questions.length ≥ 3 then questions else _get_default_questions

/-! ## The persistence model (`database.py`, `main.py`) -/

/-- A stored work-update document (temporary or permanent area). -/
structure WorkDoc where
  _id : Nat
  userId : String
  update_date : String
  description : Option String
  challenges : Option String
  plans : Option String
  submittedAt : Int
  status : String
  followupCompleted : Bool
  completedAt : Option Int
deriving Repr, DecidableEq

/-- A work-update document before the store assigns its `_id`
(`insert_one` assigns one; `replace_one` keeps the old one). -/
structure WorkDocData where
  userId : String
  update_date : String
  description : Option String
  challenges : Option String
  plans : Option String
  submittedAt : Int
  status : String
  followupCompleted : Bool
  completedAt : Option Int
deriving Repr, DecidableEq

/-- Attach a document id. -/
def WorkDocData.withId (d : WorkDocData) (i : Nat) : WorkDoc :=
  { _id := i, userId := d.userId, update_date := d.update_date,
    description := d.description, challenges := d.challenges, plans := d.plans,
    submittedAt := d.submittedAt, status := d.status,
    followupCompleted := d.followupCompleted, completedAt := d.completedAt }

/-- MongoDB `replace_one(filter, new)`: replace the first matching element. -/
def replaceFirst {α : Type} (p : α → Bool) (new : α) : List α → List α
  | [] => []
  | d :: ds => if p d then new :: ds else d :: replaceFirst p new ds

/-- MongoDB `update_one` with a set document: modify the first matching element. -/
def updateFirst {α : Type} (p : α → Bool) (f : α → α) : List α → List α
  | [] => []
  | d :: ds => if p d then f d :: ds else d :: updateFirst p f ds

/-- MongoDB `delete_one(filter)`: remove the first matching element. -/
def removeFirst {α : Type} (p : α → Bool) : List α → List α
  | [] => []
  | d :: ds => if p d then ds else d :: removeFirst p ds

/-- A fresh `_id` for `insert_one`: larger than every id in the
collection. -/
def freshId (col : List WorkDoc) : Nat := (col.map (·._id)).foldr max 0 + 1

/-- The `(userId, update_date)` filter used by the upserts. -/
def keyMatches (u dt : String) (d : WorkDoc) : Bool :=
  d.userId == u && d.update_date == dt

/-- The upsert-by-(user, date) shape shared by
`database.create_temp_work_update`, the ON_LEAVE branch of
`main.create_work_update` and the permanent-area override of
`database.move_temp_to_permanent`: `find_one` by (user, date); when a
document exists, `replace_one` by its `_id` (the replacement keeps that
`_id`); else `insert_one` with a fresh id.  Returns the resulting id
and collection. -/
def upsertByUserDate (col : List WorkDoc) (data : WorkDocData) : Nat × List WorkDoc :=
  match col.find? (keyMatches data.userId data.update_date) with
  | some existing =>
    (existing._id, replaceFirst (fun t => t._id == existing._id) (data.withId existing._id) col)
  | none =>
    let i := freshId col
    (i, col ++ [data.withId i])

/-- The function `database.create_temp_work_update`. -/
def create_temp_work_update (temp : List WorkDoc) (data : WorkDocData) : Nat × List WorkDoc :=
  upsertByUserDate temp data

/-- The two collections of the two-stage update store. -/
structure UpdateStore where
  temp : List WorkDoc
  perm : List WorkDoc
deriving Repr, DecidableEq

/-- The WORKING branch of `main.create_work_update`: stamp today's
date, the submission time, `pending_followup` status, and upsert into
the temporary area. -/
def create_work_update_working (temp : List WorkDoc) (data : WorkDocData)
    (todayDate : String) (now : Int) : Nat × List WorkDoc :=
  create_temp_work_update temp
    { data with update_date := todayDate, submittedAt := now,
                status := "pending_followup", followupCompleted := false }

/-- The ON_LEAVE branch of `main.create_work_update`: stamp today's
date, the submission time, `completed` status and the follow-up-done
flag, and upsert into the permanent area. -/
def create_work_update_on_leave (perm : List WorkDoc) (data : WorkDocData)
    (todayDate : String) (now : Int) : Nat × List WorkDoc :=
  upsertByUserDate perm
    { data with update_date := todayDate, submittedAt := now,
                status := "completed", followupCompleted := true }

/-- One create request against the store (`POST /api/work-updates`),
with its work status. -/
inductive CreateOp where
  | working (data : WorkDocData) (todayDate : String) (now : Int)
  | onLeave (data : WorkDocData) (todayDate : String) (now : Int)

/-- Apply one create request. -/
def applyCreateOp (st : UpdateStore) : CreateOp → UpdateStore
  | .working d dt n => { st with temp := (create_work_update_working st.temp d dt n).2 }
  | .onLeave d dt n => { st with perm := (create_work_update_on_leave st.perm d dt n).2 }

/-- Apply a sequence of create requests. -/
def applyCreateOps (st : UpdateStore) (ops : List CreateOp) : UpdateStore :=
  ops.foldl applyCreateOp st

/-- At most one document per `(userId, update_date)` key. -/
def uniqueByKey (col : List WorkDoc) : Prop :=
  col.Pairwise fun a b => ¬ (a.userId = b.userId ∧ a.update_date = b.update_date)

/-- Distinct `_id`s (MongoDB enforces this for every collection). -/
def uniqueIds (col : List WorkDoc) : Prop := (col.map (·._id)).Nodup

/-- The count query for one `(user, date)` key. -/
def countForKey (u dt : String) (col : List WorkDoc) : Nat :=
  (col.filter (keyMatches u dt)).length

/-- The promoted document `move_temp_to_permanent` writes: the
temporary document's fields (its `_id` dropped), the caller's
`additional_data` merged in (the completion endpoint passes a
`completedAt`), then `followupCompleted`/`status`/`completedAt` set. -/
def promotedDoc (tempUpdate : WorkDoc) (additionalCompletedAt : Option Int)
    (now : Int) : WorkDocData :=
  let base : WorkDocData :=
    { userId := tempUpdate.userId, update_date := tempUpdate.update_date,
      description := tempUpdate.description, challenges := tempUpdate.challenges,
      plans := tempUpdate.plans, submittedAt := tempUpdate.submittedAt,
      status := tempUpdate.status, followupCompleted := tempUpdate.followupCompleted,
      completedAt := tempUpdate.completedAt }
  let merged :=
    match additionalCompletedAt with
    | some t => { base with completedAt := some t }
    | none => base
  { merged with followupCompleted := true, status := "completed", completedAt := some now }

/-- The function `database.move_temp_to_permanent`: read the temporary document
(`ValueError` when it no longer exists), build the promoted document,
upsert it into the permanent area by (user, date), then delete the
temporary document by id. -/
def move_temp_to_permanent (st : UpdateStore) (tempId : Nat)
    (additionalCompletedAt : Option Int) (now : Int) :
    Except String (Nat × UpdateStore) :=
  match st.temp.find? (fun t => t._id == tempId) with
  | none => .error "Temporary work update not found"
  | some tempUpdate =>
    let permanent_update := promotedDoc tempUpdate additionalCompletedAt now
    let upserted := upsertByUserDate st.perm permanent_update
    .ok (upserted.1,
      { temp := removeFirst (fun t => t._id == tempId) st.temp, perm := upserted.2 })

/-! ## Follow-up sessions (`ai_service.py`, `main.py`) -/

/-- A follow-up session document.  `tempWorkUpdateId` and
`workUpdateId` are optional: the two session-creation paths in the
source set different fields. -/
structure SessionDoc where
  _id : String
  userId : String
  tempWorkUpdateId : Option Nat
  questions : List String
  answers : List String
  status : String
  createdAt : Int
  completedAt : Option Int
  workUpdateId : Option Nat
deriving Repr, DecidableEq

/-- The whole persisted state the completion endpoint touches. -/
structure AppState where
  sessions : List SessionDoc
  store : UpdateStore
deriving Repr, DecidableEq

/-- The endpoint `main.complete_followup_session` (`PUT
/api/followup/{session_id}/complete`): validate the three answers, look
up the session and its temporary work update (404s), then complete the
session, promote the temporary update and link the permanent id back
into the session.  Result: the HTTP outcome (error status and detail,
or the final work-update id) together with the state the database is
left in. -/
def complete_followup_session (st : AppState) (session_id : String)
    (answers : List String) (now : Int) :
    Except (Nat × String) Nat × AppState :=
  if answers.length ≠ 3 then
    (.error (400, "All 3 questions must be answered"), st)
  else if answers.any (fun a => pyStrip a == "") then
    (.error (400, "All questions must have non-empty answers"), st)
  else
    match st.sessions.find? (fun s => s._id == session_id) with
    | none => (.error (404, "Session not found"), st)
    | some session =>
      match session.tempWorkUpdateId with
      | none => (.error (500, "KeyError: tempWorkUpdateId"), st)
      | some tempId =>
        match st.store.temp.find? (fun t => t._id == tempId) with
        | none =>
          (.error (404, "Temporary work update not found (may have been auto-deleted due to TTL expiry)"), st)
        | some _tempUpdate =>
          let sessions₁ := updateFirst (fun s => s._id == session_id)
            (fun s => { s with answers := answers, status := "completed", completedAt := some now })
            st.sessions
          match move_temp_to_permanent st.store tempId (some now) now with
          | .error e => (.error (500, e), { st with sessions := sessions₁ })
          | .ok (finalId, store') =>
            let sessions₂ := updateFirst (fun s => s._id == session_id)
              (fun s => { s with workUpdateId := some finalId }) sessions₁
            (.ok finalId, { sessions := sessions₂, store := store' })

/-- The function `ai_service.save_followup_session`: build the session document
(empty answers, `pending` status) and upsert it; a persistence failure
(`replaceResult`) is logged and re-raised as
`"Failed to save follow-up session: …"`. -/
def save_followup_session (user_id session_id : String) (questions : List String)
    (now : Int) (replaceResult : SessionDoc → Except String Unit) :
    Except String String :=
  let session_doc : SessionDoc :=
    { _id := session_id, userId := user_id, tempWorkUpdateId := none,
      questions := questions, answers := List.replicate questions.length "",
      status := "pending", createdAt := now, completedAt := none, workUpdateId := none }
  match replaceResult session_doc with
  | .error e => .error ("Failed to save follow-up session: " ++ e)
  | .ok _ => .ok session_id

/-- The function `ai_service.update_followup_answers`: set the answers, the
`completed` status and the completion time; `updateResult` is the
driver's outcome (`.ok n` = `modified_count`).  A zero modified count
(unknown session id) and a persistence failure are both re-raised. -/
def update_followup_answers (session_id : String) (_answers : List String)
    (updateResult : Except String Nat) : Except String Unit :=
  match updateResult with
  | .error e => .error ("Failed to update follow-up answers: " ++ e)
  | .ok modified_count =>
    if modified_count = 0 then
      .error ("Failed to update follow-up answers: Session " ++ session_id ++ " not found")
    else .ok ()

/-- The `sort("createdAt", DESCENDING).limit(1)` head of a query: a
document with maximal `createdAt` (the earliest-listed one on ties). -/
def maxByCreatedAt : List SessionDoc → Option SessionDoc
  | [] => none
  | s :: ss =>
    match maxByCreatedAt ss with
    | none => some s
    | some t => if t.createdAt > s.createdAt then some t else some s

/-- The function `ai_service.get_pending_followup_session`: the most recently created
`pending` session of the user.  `dbResult` is the collection read; its
failure is caught (logged) and turned into `none`, the same value as
"no pending session". -/
def get_pending_followup_session (user_id : String)
    (dbResult : Except String (List SessionDoc)) : Option SessionDoc :=
  match dbResult with
  | .error _ => none
  | .ok col => maxByCreatedAt (col.filter fun s => s.userId == user_id && s.status == "pending")

/-! ## Helper lemmas: first-match surgery on collections -/

theorem find?_decomp {α : Type} {p : α → Bool} {l : List α} {x : α}
    (h : l.find? p = some x) :
    ∃ l₁ l₂, l = l₁ ++ x :: l₂ ∧ (∀ a ∈ l₁, p a = false) ∧ p x = true := by
  induction l with
  | nil => simp [List.find?] at h
  | cons d ds ih =>
    by_cases hd : p d
    · refine ⟨[], ds, ?_, by simp, ?_⟩
      · simp [List.find?, hd] at h
        simp [h]
      · simp [List.find?, hd] at h
        simpa [h] using hd
    · rw [List.find?_cons_of_neg _ (by simpa using hd)] at h
      obtain ⟨l₁, l₂, rfl, hl₁, hx⟩ := ih h
      exact ⟨d :: l₁, l₂, rfl, by
        intro a ha
        rcases List.mem_cons.mp ha with rfl | ha
        · simpa using hd
        · exact hl₁ a ha, hx⟩

theorem find?_append_cons {α : Type} {p : α → Bool} {l₁ l₂ : List α} {x : α}
    (h₁ : ∀ a ∈ l₁, p a = false) (hx : p x = true) :
    (l₁ ++ x :: l₂).find? p = some x := by
  induction l₁ with
  | nil => simp [List.find?, hx]
  | cons d ds ih =>
    have hd : p d = false := h₁ d (by simp)
    simp only [List.cons_append]
    rw [List.find?_cons_of_neg _ (by simp [hd])]
    exact ih fun a ha => h₁ a (by simp [ha])

theorem find?_append_none {α : Type} {p : α → Bool} {l₁ l₂ : List α}
    (h₁ : ∀ a ∈ l₁, p a = false) (h₂ : ∀ a ∈ l₂, p a = false) :
    (l₁ ++ l₂).find? p = none := by
  rw [List.find?_eq_none]
  intro a ha
  rcases List.mem_append.mp ha with ha | ha
  · simp [h₁ a ha]
  · simp [h₂ a ha]

theorem replaceFirst_append {α : Type} {p : α → Bool} {l₁ l₂ : List α} {x new : α}
    (h₁ : ∀ a ∈ l₁, p a = false) (hx : p x = true) :
    replaceFirst p new (l₁ ++ x :: l₂) = l₁ ++ new :: l₂ := by
  induction l₁ with
  | nil => simp [replaceFirst, hx]
  | cons d ds ih =>
    have hd : p d = false := h₁ d (by simp)
    have ih' := ih fun a ha => h₁ a (by simp [ha])
    simp [replaceFirst, hd, ih']

theorem updateFirst_append {α : Type} {p : α → Bool} {l₁ l₂ : List α} {x : α} {f : α → α}
    (h₁ : ∀ a ∈ l₁, p a = false) (hx : p x = true) :
    updateFirst p f (l₁ ++ x :: l₂) = l₁ ++ f x :: l₂ := by
  induction l₁ with
  | nil => simp [updateFirst, hx]
  | cons d ds ih =>
    have hd : p d = false := h₁ d (by simp)
    have ih' := ih fun a ha => h₁ a (by simp [ha])
    simp [updateFirst, hd, ih']

theorem removeFirst_append {α : Type} {p : α → Bool} {l₁ l₂ : List α} {x : α}
    (h₁ : ∀ a ∈ l₁, p a = false) (hx : p x = true) :
    removeFirst p (l₁ ++ x :: l₂) = l₁ ++ l₂ := by
  induction l₁ with
  | nil => simp [removeFirst, hx]
  | cons d ds ih =>
    have hd : p d = false := h₁ d (by simp)
    have ih' := ih fun a ha => h₁ a (by simp [ha])
    simp [removeFirst, hd, ih']

theorem mem_le_foldr_max (l : List Nat) : ∀ x ∈ l, x ≤ l.foldr max 0 := by
  induction l with
  | nil => simp
  | cons d ds ih =>
    intro x hx
    rcases List.mem_cons.mp hx with rfl | hx
    · simp [List.foldr_cons, Nat.le_max_left]
    · exact le_trans (ih x hx) (by simp [List.foldr_cons, Nat.le_max_right])

theorem freshId_not_mem (col : List WorkDoc) : freshId col ∉ col.map (·._id) := by
  intro hmem
  have h := mem_le_foldr_max (col.map (·._id)) _ hmem
  simp only [freshId] at h
  omega

theorem keyMatches_iff {u dt : String} {d : WorkDoc} :
    keyMatches u dt d = true ↔ d.userId = u ∧ d.update_date = dt := by
  simp [keyMatches]

theorem pairwise_middle_of_eqv {α : Type} {R : α → α → Prop} {l₁ l₂ : List α} {x y : α}
    (h : (l₁ ++ x :: l₂).Pairwise R)
    (hl : ∀ a, R a x → R a y) (hr : ∀ b, R x b → R y b) :
    (l₁ ++ y :: l₂).Pairwise R := by
  rw [List.pairwise_append, List.pairwise_cons] at h ⊢
  obtain ⟨h₁, ⟨hx₂, h₂⟩, h₁₂⟩ := h
  refine ⟨h₁, ⟨fun b hb => hr b (hx₂ b hb), h₂⟩, ?_⟩
  intro a ha b hb
  rcases List.mem_cons.mp hb with rfl | hb
  · exact hl a (h₁₂ a ha x (by simp))
  · exact h₁₂ a ha b (by simp [hb])

theorem upsertByUserDate_spec (col : List WorkDoc) (data : WorkDocData)
    (hk : uniqueByKey col) (hi : uniqueIds col) :
    uniqueByKey (upsertByUserDate col data).2 ∧
    uniqueIds (upsertByUserDate col data).2 ∧
    (upsertByUserDate col data).2.filter (keyMatches data.userId data.update_date)
      = [data.withId (upsertByUserDate col data).1] := by
  unfold upsertByUserDate
  cases h : col.find? (keyMatches data.userId data.update_date) with
  | none =>
    have hall : ∀ a ∈ col, keyMatches data.userId data.update_date a = false := by
      intro a ha
      have := List.find?_eq_none.mp h a ha
      simpa using this
    have hnewkey : keyMatches data.userId data.update_date (data.withId (freshId col)) = true := by
      simp [keyMatches, WorkDocData.withId]
    refine ⟨?_, ?_, ?_⟩
    · rw [uniqueByKey, List.pairwise_append]
      refine ⟨hk, by simp, ?_⟩
      intro a ha b hb
      rcases List.mem_singleton.mp hb with rfl
      rintro ⟨hu, hdt⟩
      have : keyMatches data.userId data.update_date a = true := by
        simp [keyMatches, hu, hdt, WorkDocData.withId]
      simp [hall a ha] at this
    · rw [uniqueIds, List.map_append, List.nodup_append]
      refine ⟨hi, by simp, ?_⟩
      intro i hi₁ hi₂
      simp only [List.map_cons, List.map_nil, List.mem_singleton, WorkDocData.withId] at hi₂
      subst hi₂
      exact freshId_not_mem col hi₁
    · rw [List.filter_append]
      have : col.filter (keyMatches data.userId data.update_date) = [] :=
        List.filter_eq_nil_iff.mpr fun a ha => by simp [hall a ha]
      simp [this, hnewkey]
  | some ex =>
    obtain ⟨l₁, l₂, hcol, hl₁, hex⟩ := find?_decomp h
    obtain ⟨hexu, hexdt⟩ := keyMatches_iff.mp hex
    subst hcol
    have hid₁ : ex._id ∉ l₁.map (·._id) := by
      rw [uniqueIds, List.map_append, List.nodup_append] at hi
      exact fun hmem => hi.2.2 hmem (by simp)
    have hid₂ : ex._id ∉ l₂.map (·._id) := by
      rw [uniqueIds, List.map_append, List.nodup_append, List.map_cons, List.nodup_cons] at hi
      exact hi.2.1.1
    have hrepl : replaceFirst (fun t => t._id == ex._id) (data.withId ex._id) (l₁ ++ ex :: l₂)
        = l₁ ++ data.withId ex._id :: l₂ := by
      refine replaceFirst_append ?_ (by simp)
      intro a ha
      simp only [beq_eq_false_iff_ne, ne_eq]
      exact fun heq => hid₁ (heq ▸ List.mem_map_of_mem (·._id) ha)
    simp only [hrepl]
    have hnewkey : keyMatches data.userId data.update_date (data.withId ex._id) = true := by
      simp [keyMatches, WorkDocData.withId]
    have hl₂key : ∀ b ∈ l₂, keyMatches data.userId data.update_date b = false := by
      have hpair := hk
      rw [uniqueByKey, List.pairwise_append, List.pairwise_cons] at hpair
      intro b hb
      by_contra hkey
      have hkey' : keyMatches data.userId data.update_date b = true := by
        revert hkey
        cases keyMatches data.userId data.update_date b <;> simp
      obtain ⟨hbu, hbdt⟩ := keyMatches_iff.mp hkey'
      exact hpair.2.1.1 b hb ⟨by rw [hexu, hbu], by rw [hexdt, hbdt]⟩
    refine ⟨?_, ?_, ?_⟩
    · refine pairwise_middle_of_eqv hk ?_ ?_
      · intro a ha
        rintro ⟨hu, hdt⟩
        exact ha ⟨by simpa [WorkDocData.withId, hexu] using hu,
                  by simpa [WorkDocData.withId, hexdt] using hdt⟩
      · intro b hb
        rintro ⟨hu, hdt⟩
        exact hb ⟨by simpa [WorkDocData.withId, hexu] using hu,
                  by simpa [WorkDocData.withId, hexdt] using hdt⟩
    · rw [uniqueIds] at hi ⊢
      simpa [WorkDocData.withId] using hi
    · rw [List.filter_append, List.filter_cons]
      have h₁nil : l₁.filter (keyMatches data.userId data.update_date) = [] :=
        List.filter_eq_nil_iff.mpr fun a ha => by simp [hl₁ a ha]
      have h₂nil : l₂.filter (keyMatches data.userId data.update_date) = [] :=
        List.filter_eq_nil_iff.mpr fun a ha => by simp [hl₂key a ha]
      simp [h₁nil, h₂nil, hnewkey]

theorem countForKey_upsert (col : List WorkDoc) (data : WorkDocData)
    (hk : uniqueByKey col) (hi : uniqueIds col) :
    countForKey data.userId data.update_date (upsertByUserDate col data).2 = 1 := by
  have h := (upsertByUserDate_spec col data hk hi).2.2
  simp [countForKey, h]

/-- One create request keeps both areas' invariants. -/
theorem applyCreateOp_preserves (st : UpdateStore) (op : CreateOp)
    (h : uniqueByKey st.temp ∧ uniqueIds st.temp ∧ uniqueByKey st.perm ∧ uniqueIds st.perm) :
    uniqueByKey (applyCreateOp st op).temp ∧ uniqueIds (applyCreateOp st op).temp ∧
    uniqueByKey (applyCreateOp st op).perm ∧ uniqueIds (applyCreateOp st op).perm := by
  obtain ⟨h₁, h₂, h₃, h₄⟩ := h
  cases op with
  | working d dt n =>
    have hs := upsertByUserDate_spec st.temp
      { d with update_date := dt, submittedAt := n,
               status := "pending_followup", followupCompleted := false } h₁ h₂
    exact ⟨hs.1, hs.2.1, h₃, h₄⟩
  | onLeave d dt n =>
    have hs := upsertByUserDate_spec st.perm
      { d with update_date := dt, submittedAt := n,
               status := "completed", followupCompleted := true } h₃ h₄
    exact ⟨h₁, h₂, hs.1, hs.2.1⟩

theorem applyCreateOps_preserves (ops : List CreateOp) (st : UpdateStore)
    (h : uniqueByKey st.temp ∧ uniqueIds st.temp ∧ uniqueByKey st.perm ∧ uniqueIds st.perm) :
    uniqueByKey (applyCreateOps st ops).temp ∧ uniqueIds (applyCreateOps st ops).temp ∧
    uniqueByKey (applyCreateOps st ops).perm ∧ uniqueIds (applyCreateOps st ops).perm := by
  induction ops generalizing st with
  | nil => simpa [applyCreateOps] using h
  | cons op ops ih =>
    have := applyCreateOp_preserves st op h
    simpa [applyCreateOps, List.foldl_cons] using ih (applyCreateOp st op) this

/-! ## Helper lemmas: the response parser -/

theorem structuredStep_mem {acc : List String} {line q : String}
    (h : q ∈ structuredStep acc line) : q ∈ acc ∨ q ≠ "" := by
  simp only [structuredStep] at h
  split at h
  · split at h
    · rename_i hcond
      rcases List.mem_append.mp h with hm | hm
      · exact Or.inl hm
      · have hqe := List.mem_singleton.mp hm
        subst hqe
        exact Or.inr hcond.1
    · exact Or.inl h
  · exact Or.inl h

theorem numberedStep_mem {acc : List String} {line q : String}
    (h : q ∈ numberedStep acc line) : q ∈ acc ∨ q ≠ "" := by
  simp only [numberedStep] at h
  split at h
  · exact Or.inl h
  · split at h
    · rename_i hcond
      rcases List.mem_append.mp h with hm | hm
      · exact Or.inl hm
      · have hqe := List.mem_singleton.mp hm
        subst hqe
        exact Or.inr hcond.1
    · exact Or.inl h

theorem foldl_structuredStep_nonempty (lines : List String) :
    ∀ acc, (∀ q ∈ acc, q ≠ "") → ∀ q ∈ lines.foldl structuredStep acc, q ≠ "" := by
  induction lines with
  | nil => intro acc hacc q hq; exact hacc q hq
  | cons line rest ih =>
    intro acc hacc q hq
    refine ih (structuredStep acc line) ?_ q hq
    intro q' hq'
    rcases structuredStep_mem hq' with h | h
    · exact hacc q' h
    · exact h

theorem foldl_numberedStep_nonempty (lines : List String) :
    ∀ acc, (∀ q ∈ acc, q ≠ "") → ∀ q ∈ lines.foldl numberedStep acc, q ≠ "" := by
  induction lines with
  | nil => intro acc hacc q hq; exact hacc q hq
  | cons line rest ih =>
    intro acc hacc q hq
    refine ih (numberedStep acc line) ?_ q hq
    intro q' hq'
    rcases numberedStep_mem hq' with h | h
    · exact hacc q' h
    · exact h

theorem patternPass_nonempty (lines : List String) :
    ∀ acc, (∀ q ∈ acc, q ≠ "") → ∀ q ∈ patternPass lines acc, q ≠ "" := by
  induction lines with
  | nil => intro acc hacc q hq; exact hacc q hq
  | cons line rest ih =>
    intro acc hacc q hq
    simp only [patternPass] at hq
    split at hq
    · exact hacc q hq
    · split at hq
      · exact ih acc hacc q hq
      · split at hq
        · split at hq
          · rename_i hcond
            refine ih _ ?_ q hq
            intro q' hq'
            rcases List.mem_append.mp hq' with hm | hm
            · exact hacc q' hm
            · have hqe := List.mem_singleton.mp hm
              subst hqe
              exact hcond.1
          · exact ih acc hacc q hq
        · exact ih acc hacc q hq

theorem collectQuestions_nonempty (lines : List String) :
    ∀ q ∈ collectQuestions lines, q ≠ "" := by
  intro q hq
  simp only [collectQuestions] at hq
  repeat split at hq
  all_goals
    first
      | exact patternPass_nonempty lines [] (by simp) q hq
      | exact foldl_numberedStep_nonempty lines [] (by simp) q hq
      | exact foldl_structuredStep_nonempty lines [] (by simp) q hq

theorem padWithDefaults_eq (qs : List String) (h : qs.length < 3) :
    padWithDefaults 3 qs = qs ++ _get_default_questions.drop qs.length := by
  have h0 : qs.length = 0 ∨ qs.length = 1 ∨ qs.length = 2 := by omega
  rcases h0 with h0 | h0 | h0 <;>
    simp [padWithDefaults, h0, _get_default_questions]

/-! ## Claim theorems: the response parser -/

/-- C1: for every input string, including the empty string,
`_parse_questions_from_response` returns a list of exactly 3 non-empty
question strings; candidates are truncated when more than 3 were
collected, and when fewer than 3 were collected the result is padded
from the fixed 3-item default question list until its length is 3. -/
theorem parse_questions_exactly_three_nonempty (s : String) :
    (_parse_questions_from_response s).length = 3 ∧
    (∀ q ∈ _parse_questions_from_response s, q ≠ "") ∧
    (3 < (collectQuestions (splitLines s)).length →
      _parse_questions_from_response s = (collectQuestions (splitLines s)).take 3) ∧
    ((collectQuestions (splitLines s)).length < 3 →
      _parse_questions_from_response s =
        collectQuestions (splitLines s) ++
          _get_default_questions.drop (collectQuestions (splitLines s)).length) := by
  have hdq : ∀ q ∈ _get_default_questions, q ≠ "" := by decide
  have hdef : _parse_questions_from_response s =
      if (collectQuestions (splitLines s)).length > 3 then (collectQuestions (splitLines s)).take 3
      else if (collectQuestions (splitLines s)).length < 3 then
        padWithDefaults 3 (collectQuestions (splitLines s))
      else collectQuestions (splitLines s) := rfl
  by_cases h3 : 3 < (collectQuestions (splitLines s)).length
  · rw [hdef, if_pos h3]
    refine ⟨?_, ?_, fun _ => rfl, fun h => absurd h (by omega)⟩
    · simp [List.length_take]
      omega
    · intro q hq
      exact collectQuestions_nonempty (splitLines s) q (List.take_subset _ _ hq)
  · by_cases hlt : (collectQuestions (splitLines s)).length < 3
    · rw [hdef, if_neg h3, if_pos hlt, padWithDefaults_eq _ hlt]
      refine ⟨?_, ?_, fun h => absurd h h3, fun _ => rfl⟩
      · have hdl : _get_default_questions.length = 3 := by decide
        simp [List.length_append, List.length_drop, hdl]
        omega
      · intro q hq
        rcases List.mem_append.mp hq with hm | hm
        · exact collectQuestions_nonempty (splitLines s) q hm
        · exact hdq q (List.drop_subset _ _ hm)
    · rw [hdef, if_neg h3, if_neg hlt]
      refine ⟨by omega, ?_, fun h => absurd h h3, fun h => absurd h hlt⟩
      exact collectQuestions_nonempty (splitLines s)

/-- C7: when the structured-label pass yields fewer than 3 candidates
and the model reply contains at least 3 well-formed numbered lines (the
numbered-pass candidates), the parser returns exactly the first three
of those candidates — the trimmed lines in their original order with
the numbering marker and inline bold-label decoration stripped. -/
theorem parse_numbered_lines_returned_in_order (s : String)
    (h1 : ((splitLines s).foldl structuredStep []).length < 3)
    (h2 : 3 ≤ ((splitLines s).foldl numberedStep []).length) :
    _parse_questions_from_response s = ((splitLines s).foldl numberedStep []).take 3 := by
  have hcol : collectQuestions (splitLines s) = (splitLines s).foldl numberedStep [] := by
    simp only [collectQuestions]
    rw [if_pos h1, if_neg (by omega)]
  have hdef : _parse_questions_from_response s =
      if (collectQuestions (splitLines s)).length > 3 then (collectQuestions (splitLines s)).take 3
      else if (collectQuestions (splitLines s)).length < 3 then
        padWithDefaults 3 (collectQuestions (splitLines s))
      else collectQuestions (splitLines s) := rfl
  rw [hdef, hcol]
  by_cases h3 : 3 < ((splitLines s).foldl numberedStep []).length
  · rw [if_pos h3]
  · rw [if_neg h3, if_neg (by omega)]
    exact (List.take_of_length_le (by omega)).symm

/-- Witness for C7 at the spec's example reply. -/
theorem parse_numbered_lines_returned_in_order_witness :
    ((splitLines "1. How did you test it?\n2. What blocked you?\n3. What's next?").foldl structuredStep []).length < 3 ∧
    3 ≤ ((splitLines "1. How did you test it?\n2. What blocked you?\n3. What's next?").foldl numberedStep []).length ∧
    _parse_questions_from_response "1. How did you test it?\n2. What blocked you?\n3. What's next?" =
      ["How did you test it?", "What blocked you?", "What's next?"] :=
  ⟨by decide, by decide, by
    rw [parse_numbered_lines_returned_in_order _ (by decide) (by decide)]
    decide⟩

/-- C10: when the three parsing passes yield `k` questions with
`0 < k < 3`, the parser pads with the default questions starting at
index `k` (it appends `defaults.drop k`), skipping the first `k`
default questions entirely. -/
theorem parse_pads_from_default_index (s : String)
    (h0 : 0 < (collectQuestions (splitLines s)).length)
    (h3 : (collectQuestions (splitLines s)).length < 3) :
    _parse_questions_from_response s =
      collectQuestions (splitLines s) ++
        _get_default_questions.drop (collectQuestions (splitLines s)).length := by
  have hdef : _parse_questions_from_response s =
      if (collectQuestions (splitLines s)).length > 3 then (collectQuestions (splitLines s)).take 3
      else if (collectQuestions (splitLines s)).length < 3 then
        padWithDefaults 3 (collectQuestions (splitLines s))
      else collectQuestions (splitLines s) := rfl
  rw [hdef, if_neg (by omega), if_pos h3, padWithDefaults_eq _ h3]

/-- Witness for C10: a reply from which exactly 2 questions are parsed
is completed with the third default question, never the first or
second. -/
theorem parse_pads_from_default_index_witness :
    0 < (collectQuestions (splitLines "How did the deployment go today?\nWhat is blocking the release now?")).length ∧
    (collectQuestions (splitLines "How did the deployment go today?\nWhat is blocking the release now?")).length < 3 ∧
    _parse_questions_from_response "How did the deployment go today?\nWhat is blocking the release now?" =
      ["How did the deployment go today?", "What is blocking the release now?",
       "What new skills or concepts have you learned recently that you'd like to discuss?"] :=
  ⟨by decide, by decide, by
    rw [parse_pads_from_default_index _ (by decide) (by decide)]
    decide⟩

/-! ## Helper lemmas: the yesterday-plans lookup -/

theorem getPlansStripped_eq {d : AiDoc} (h : d.plans ≠ some none) :
    getPlansStripped d = .ok (specPlansText d) := by
  cases hp : d.plans with
  | none => simp [getPlansStripped, specPlansText, hp]
  | some o =>
    cases o with
    | none => exact absurd hp h
    | some s => simp [getPlansStripped, specPlansText, hp]

theorem yesterdayPass_eq (yest : Int) (docs : List AiDoc)
    (h : ∀ d ∈ docs, d.plans ≠ some none) :
    yesterdayPass yest docs = .ok (docs.findSome? fun d =>
      if _extract_timestamp d = some yest ∧ specPlansText d ≠ "" then
        some (specPlansText d) else none) := by
  induction docs with
  | nil => simp [yesterdayPass]
  | cons d ds ih =>
    have hd := getPlansStripped_eq (h d (by simp))
    have ih' := ih fun a ha => h a (by simp [ha])
    simp only [yesterdayPass, List.findSome?_cons]
    cases hts : _extract_timestamp d with
    | none => simp [hts, ih']
    | some t =>
      by_cases ht : t = yest
      · subst ht
        by_cases hpe : specPlansText d = ""
        · simp [hts, hd, hpe, ih']
        · simp [hts, hd, hpe]
      · simp [hts, ht, ih']

theorem recentPass_eq (today : Int) (docs : List AiDoc)
    (h : ∀ d ∈ docs, d.plans ≠ some none) :
    recentPass today docs = .ok (docs.findSome? fun d =>
      if _extract_timestamp d ≠ some today ∧ specPlansText d ≠ "" then
        some (specPlansText d) else none) := by
  induction docs with
  | nil => simp [recentPass]
  | cons d ds ih =>
    have hd := getPlansStripped_eq (h d (by simp))
    have ih' := ih fun a ha => h a (by simp [ha])
    simp only [recentPass, List.findSome?_cons]
    cases hts : _extract_timestamp d with
    | none =>
      by_cases hpe : specPlansText d = ""
      · simp [hts, hd, hpe, ih']
      · simp [hts, hd, hpe]
    | some t =>
      by_cases ht : t = today
      · subst ht
        simp [hts, ih']
      · by_cases hpe : specPlansText d = ""
        · simp [hts, ht, hd, hpe, ih']
        · simp [hts, ht, hd, hpe]

/-! ## Claim theorems: yesterday's plans, timestamps, question generation -/

/-- Counterexample to C6 as stated: a recent record whose `plans` key
holds `None` (a work update submitted without plans), dated neither
today nor yesterday.  The lookup does not return any string — it raises
(`doc.get('plans', '').strip()` is `None.strip()`), modelled as
`Except.error` — where the claim requires the sentinel
"No previous plans found". -/
theorem extract_yesterday_plans_raises_on_null_plans :
    _extract_yesterday_plans_from_recent_docs
      [{ submittedAt := some 90, timestamp := none, date := none, plans := some none }] 100
      = .error () := by rfl

/-- C6 (amended): provided no record's `plans` key holds `None`, the
lookup returns the plans of a record dated exactly yesterday (today
minus one calendar day) when one exists with non-blank plans, otherwise
the first non-blank plans among records not dated exactly today,
otherwise the sentinel "No previous plans found" — i.e. it agrees with
the spec-side `specYesterdayPlans`. -/
theorem extract_yesterday_plans_spec (docs : List AiDoc) (today : Int)
    (h : ∀ d ∈ docs, d.plans ≠ some none) :
    _extract_yesterday_plans_from_recent_docs docs today =
      .ok (specYesterdayPlans docs today) := by
  cases docs with
  | nil => simp [_extract_yesterday_plans_from_recent_docs, specYesterdayPlans]
  | cons d ds =>
    have hy := yesterdayPass_eq (today - 1) (d :: ds) h
    have hr := recentPass_eq today (d :: ds) h
    simp only [_extract_yesterday_plans_from_recent_docs, specYesterdayPlans,
      List.isEmpty_cons, Bool.false_eq_true, if_false, hy, hr]
    cases (d :: ds).findSome? fun a =>
        if _extract_timestamp a = some (today - 1) ∧ specPlansText a ≠ "" then
          some (specPlansText a) else none with
    | some p => rfl
    | none =>
      cases (d :: ds).findSome? fun a =>
          if _extract_timestamp a ≠ some today ∧ specPlansText a ≠ "" then
            some (specPlansText a) else none with
      | some p => rfl
      | none => rfl

/-- Witness for the amended C6, at the spec's example: a record dated
2024-01-09 with plans "deploy service", today's record dated 2024-01-10
with no plans, today = 2024-01-10 — the lookup returns
"deploy service". -/
theorem extract_yesterday_plans_spec_witness :
    (∀ d ∈ ([{ submittedAt := none, timestamp := none,
               date := some (.str "2024-01-10"), plans := none },
             { submittedAt := none, timestamp := none,
               date := some (.str "2024-01-09"), plans := some (some "deploy service") }] :
             List AiDoc),
        d.plans ≠ some none) ∧
    _extract_yesterday_plans_from_recent_docs
      [{ submittedAt := none, timestamp := none,
         date := some (.str "2024-01-10"), plans := none },
       { submittedAt := none, timestamp := none,
         date := some (.str "2024-01-09"), plans := some (some "deploy service") }]
      (dayOrdinal 2024 1 10) = .ok "deploy service" :=
  ⟨by decide, by
    rw [extract_yesterday_plans_spec _ _ (by decide)]
    rfl⟩

/-- C9: the timestamp extractor returns the `submittedAt` field when
present, else the `timestamp` field, else the `date` field — taken
as-is when already a datetime, parsed when a string, where a string
that fails to parse yields `none` rather than raising — and `none` when
no field is present.  The Lean function is total: no exception
propagates for any record. -/
theorem extract_timestamp_precedence :
    (∀ (doc : AiDoc) (t : Int), doc.submittedAt = some t →
      _extract_timestamp doc = some t) ∧
    (∀ (doc : AiDoc) (t : Int), doc.submittedAt = none → doc.timestamp = some t →
      _extract_timestamp doc = some t) ∧
    (∀ (doc : AiDoc) (t : Int), doc.submittedAt = none → doc.timestamp = none →
      doc.date = some (.dt t) → _extract_timestamp doc = some t) ∧
    (∀ (doc : AiDoc) (s : String), doc.submittedAt = none → doc.timestamp = none →
      doc.date = some (.str s) → _extract_timestamp doc = parseDateStr s) ∧
    (∀ (doc : AiDoc) (s : String), doc.submittedAt = none → doc.timestamp = none →
      doc.date = some (.str s) → parseDateStr s = none → _extract_timestamp doc = none) ∧
    (∀ doc : AiDoc, doc.submittedAt = none → doc.timestamp = none → doc.date = none →
      _extract_timestamp doc = none) := by
  refine ⟨?_, ?_, ?_, ?_, ?_, ?_⟩
  · intro doc t h; simp [_extract_timestamp, h]
  · intro doc t h₁ h₂; simp [_extract_timestamp, h₁, h₂]
  · intro doc t h₁ h₂ h₃; simp [_extract_timestamp, h₁, h₂, h₃]
  · intro doc s h₁ h₂ h₃; simp [_extract_timestamp, h₁, h₂, h₃]
  · intro doc s h₁ h₂ h₃ h₄; simp [_extract_timestamp, h₁, h₂, h₃, h₄]
  · intro doc h₁ h₂ h₃; simp [_extract_timestamp, h₁, h₂, h₃]

/-- C2: `generate_followup_questions` never raises (it is a total
function of its effect outcomes), and every failure — the history
lookup raising, the prompt build raising (the yesterday-plans lookup is
its raising step), the model call raising, a `None` reply text, or an
empty/whitespace-only reply — yields the fixed default 3-question list
unchanged. -/
theorem generate_followup_questions_defaults_on_failure :
    (∀ (today : Int) (m : Except Unit (Option String)),
      generate_followup_questions (.error ()) today m = _get_default_questions) ∧
    (∀ (docs : List AiDoc) (today : Int) (m : Except Unit (Option String)),
      _extract_yesterday_plans_from_recent_docs docs today = .error () →
      generate_followup_questions (.ok docs) today m = _get_default_questions) ∧
    (∀ (h : Except Unit (List AiDoc)) (today : Int),
      generate_followup_questions h today (.error ()) = _get_default_questions) ∧
    (∀ (h : Except Unit (List AiDoc)) (today : Int),
      generate_followup_questions h today (.ok none) = _get_default_questions) ∧
    (∀ (h : Except Unit (List AiDoc)) (today : Int) (t : String), pyStrip t = "" →
      generate_followup_questions h today (.ok (some t)) = _get_default_questions) := by
  refine ⟨?_, ?_, ?_, ?_, ?_⟩
  · intro today m; rfl
  · intro docs today m hE
    simp [generate_followup_questions, hE]
  · intro h today
    cases h with
    | error e => rfl
    | ok docs =>
      cases hE : _extract_yesterday_plans_from_recent_docs docs today with
      | error e => simp [generate_followup_questions, hE]
      | ok yp => simp [generate_followup_questions, hE]
  · intro h today
    cases h with
    | error e => rfl
    | ok docs =>
      cases hE : _extract_yesterday_plans_from_recent_docs docs today with
      | error e => simp [generate_followup_questions, hE]
      | ok yp => simp [generate_followup_questions, hE]
  · intro h today t hstrip
    cases h with
    | error e => rfl
    | ok docs =>
      cases hE : _extract_yesterday_plans_from_recent_docs docs today with
      | error e => simp [generate_followup_questions, hE]
      | ok yp => simp [generate_followup_questions, hE, hstrip]

/-! ## Claim theorems: the two-stage update store -/

/-- C4: starting from empty areas, any sequence of create requests
leaves at most one temporary and at most one permanent record per
(user id, calendar date) — the upserts replace rather than duplicate —
and creating twice for the same (user, date) leaves a count of exactly
1 for that key, in the temporary area for WORKING creates and in the
permanent area for ON_LEAVE creates. -/
theorem create_upsert_at_most_one_per_key :
    (∀ ops : List CreateOp,
      uniqueByKey (applyCreateOps ⟨[], []⟩ ops).temp ∧
      uniqueByKey (applyCreateOps ⟨[], []⟩ ops).perm) ∧
    (∀ (d₁ d₂ : WorkDocData) (dt : String) (n₁ n₂ : Int), d₁.userId = d₂.userId →
      countForKey d₂.userId dt
        (applyCreateOps ⟨[], []⟩ [.working d₁ dt n₁, .working d₂ dt n₂]).temp = 1) ∧
    (∀ (d₁ d₂ : WorkDocData) (dt : String) (n₁ n₂ : Int), d₁.userId = d₂.userId →
      countForKey d₂.userId dt
        (applyCreateOps ⟨[], []⟩ [.onLeave d₁ dt n₁, .onLeave d₂ dt n₂]).perm = 1) := by
  have hempty : uniqueByKey ([] : List WorkDoc) ∧ uniqueIds ([] : List WorkDoc) ∧
      uniqueByKey ([] : List WorkDoc) ∧ uniqueIds ([] : List WorkDoc) := by
    refine ⟨?_, ?_, ?_, ?_⟩ <;> simp [uniqueByKey, uniqueIds]
  refine ⟨?_, ?_, ?_⟩
  · intro ops
    have h := applyCreateOps_preserves ops ⟨[], []⟩ hempty
    exact ⟨h.1, h.2.2.1⟩
  · intro d₁ d₂ dt n₁ n₂ _hu
    have h1 := applyCreateOp_preserves ⟨[], []⟩ (.working d₁ dt n₁) hempty
    have hcount := countForKey_upsert (applyCreateOp ⟨[], []⟩ (.working d₁ dt n₁)).temp
      { d₂ with update_date := dt, submittedAt := n₂,
                status := "pending_followup", followupCompleted := false } h1.1 h1.2.1
    simpa [applyCreateOps, applyCreateOp, create_work_update_working,
      create_temp_work_update] using hcount
  · intro d₁ d₂ dt n₁ n₂ _hu
    have h1 := applyCreateOp_preserves ⟨[], []⟩ (.onLeave d₁ dt n₁) hempty
    have hcount := countForKey_upsert (applyCreateOp ⟨[], []⟩ (.onLeave d₁ dt n₁)).perm
      { d₂ with update_date := dt, submittedAt := n₂,
                status := "completed", followupCompleted := true } h1.2.2.1 h1.2.2.2
    simpa [applyCreateOps, applyCreateOp, create_work_update_on_leave] using hcount

theorem countForKey_zero_of_no_match {u dt : String} {l : List WorkDoc}
    (h : ∀ a ∈ l, keyMatches u dt a = false) : countForKey u dt l = 0 := by
  have : l.filter (keyMatches u dt) = [] :=
    List.filter_eq_nil_iff.mpr fun a ha => by simp [h a ha]
  simp [countForKey, this]

/-- C3: promoting an existing temporary record reads it, merges the
completion metadata, marks it completed with the follow-up-done flag
set, upserts it into the permanent area keyed by (user, date)
overwriting any same-day permanent record, and deletes the temporary
record: afterwards there are zero temporary records and exactly one
permanent record for that (user, date) — the promoted document itself —
and promoting the same temporary id again fails with the not-found
signal. -/
theorem move_temp_to_permanent_promotes
    (st : UpdateStore) (tempId : Nat) (add : Option Int) (now : Int) (tu : WorkDoc)
    (hkT : uniqueByKey st.temp) (hiT : uniqueIds st.temp)
    (hkP : uniqueByKey st.perm) (hiP : uniqueIds st.perm)
    (hfind : st.temp.find? (fun t => t._id == tempId) = some tu) :
    ∃ pid st',
      move_temp_to_permanent st tempId add now = .ok (pid, st') ∧
      countForKey tu.userId tu.update_date st'.temp = 0 ∧
      countForKey tu.userId tu.update_date st'.perm = 1 ∧
      st'.perm.filter (keyMatches tu.userId tu.update_date)
        = [(promotedDoc tu add now).withId pid] ∧
      (promotedDoc tu add now).status = "completed" ∧
      (promotedDoc tu add now).followupCompleted = true ∧
      (promotedDoc tu add now).completedAt = some now ∧
      move_temp_to_permanent st' tempId add now = .error "Temporary work update not found" := by
  obtain ⟨l₁, l₂, hteq, hl₁, hptu⟩ := find?_decomp hfind
  have htid : tu._id = tempId := by simpa using hptu
  have hpdu : (promotedDoc tu add now).userId = tu.userId := by cases add <;> rfl
  have hpddt : (promotedDoc tu add now).update_date = tu.update_date := by cases add <;> rfl
  have hspec := upsertByUserDate_spec st.perm (promotedDoc tu add now) hkP hiP
  have hremove : removeFirst (fun t => t._id == tempId) st.temp = l₁ ++ l₂ := by
    rw [hteq]; exact removeFirst_append hl₁ hptu
  have hmove : move_temp_to_permanent st tempId add now =
      .ok ((upsertByUserDate st.perm (promotedDoc tu add now)).1,
        { temp := l₁ ++ l₂,
          perm := (upsertByUserDate st.perm (promotedDoc tu add now)).2 }) := by
    simp [move_temp_to_permanent, hfind, hremove]
  -- key facts about the two halves of the old temporary area
  have hkTemp := hkT
  rw [uniqueByKey, hteq, List.pairwise_append, List.pairwise_cons] at hkTemp
  have hl₁key : ∀ a ∈ l₁, keyMatches tu.userId tu.update_date a = false := by
    intro a ha
    have := hkTemp.2.2 a ha tu (by simp)
    by_contra hkey
    have hkey' : keyMatches tu.userId tu.update_date a = true := by
      revert hkey; cases keyMatches tu.userId tu.update_date a <;> simp
    obtain ⟨hau, hadt⟩ := keyMatches_iff.mp hkey'
    exact this ⟨hau.symm ▸ rfl, hadt.symm ▸ rfl⟩
  have hl₂key : ∀ a ∈ l₂, keyMatches tu.userId tu.update_date a = false := by
    intro a ha
    have := hkTemp.2.1.1 a ha
    by_contra hkey
    have hkey' : keyMatches tu.userId tu.update_date a = true := by
      revert hkey; cases keyMatches tu.userId tu.update_date a <;> simp
    obtain ⟨hau, hadt⟩ := keyMatches_iff.mp hkey'
    exact this ⟨hau.symm, hadt.symm⟩
  have hl₂id : ∀ a ∈ l₂, (a._id == tempId) = false := by
    have hiTemp := hiT
    rw [uniqueIds, hteq, List.map_append, List.map_cons, List.nodup_append,
      List.nodup_cons] at hiTemp
    intro a ha
    have : tu._id ∉ l₂.map (·._id) := hiTemp.2.1.1
    simp only [beq_eq_false_iff_ne, ne_eq]
    intro heq
    exact this (htid ▸ heq ▸ List.mem_map_of_mem (·._id) ha)
  refine ⟨_, _, hmove, ?_, ?_, ?_, by cases add <;> rfl, by cases add <;> rfl,
    by cases add <;> rfl, ?_⟩
  · exact countForKey_zero_of_no_match fun a ha => by
      rcases List.mem_append.mp ha with h | h
      · exact hl₁key a h
      · exact hl₂key a h
  · have := hspec.2.2
    rw [hpdu, hpddt] at this
    simp [countForKey, this]
  · have := hspec.2.2
    rw [hpdu, hpddt] at this
    exact this
  · have hnone : (l₁ ++ l₂).find? (fun t => t._id == tempId) = none :=
      find?_append_none hl₁ hl₂id
    simp [move_temp_to_permanent, hnone]

/-- Witness for C3: create a temporary record for (u1, 2024-01-10),
promote it — zero temporary and exactly one permanent record for that
(user, date) remain, and a second promotion of the same temp id fails
with the not-found signal. -/
theorem move_temp_to_permanent_promotes_witness :
    ∃ pid st',
      move_temp_to_permanent
        ⟨[{ _id := 1, userId := "u1", update_date := "2024-01-10",
            description := some "work", challenges := none, plans := none,
            submittedAt := 0, status := "pending_followup",
            followupCompleted := false, completedAt := none }], []⟩ 1 (some 7) 7
        = .ok (pid, st') ∧
      countForKey "u1" "2024-01-10" st'.temp = 0 ∧
      countForKey "u1" "2024-01-10" st'.perm = 1 ∧
      st'.perm.filter (keyMatches "u1" "2024-01-10")
        = [(promotedDoc
              { _id := 1, userId := "u1", update_date := "2024-01-10",
                description := some "work", challenges := none, plans := none,
                submittedAt := 0, status := "pending_followup",
                followupCompleted := false, completedAt := none } (some 7) 7).withId pid] ∧
      (promotedDoc
          { _id := 1, userId := "u1", update_date := "2024-01-10",
            description := some "work", challenges := none, plans := none,
            submittedAt := 0, status := "pending_followup",
            followupCompleted := false, completedAt := none } (some 7) 7).status = "completed" ∧
      (promotedDoc
          { _id := 1, userId := "u1", update_date := "2024-01-10",
            description := some "work", challenges := none, plans := none,
            submittedAt := 0, status := "pending_followup",
            followupCompleted := false, completedAt := none } (some 7) 7).followupCompleted = true ∧
      (promotedDoc
          { _id := 1, userId := "u1", update_date := "2024-01-10",
            description := some "work", challenges := none, plans := none,
            submittedAt := 0, status := "pending_followup",
            followupCompleted := false, completedAt := none } (some 7) 7).completedAt = some 7 ∧
      move_temp_to_permanent st' 1 (some 7) 7 = .error "Temporary work update not found" :=
  move_temp_to_permanent_promotes
    ⟨[{ _id := 1, userId := "u1", update_date := "2024-01-10",
        description := some "work", challenges := none, plans := none,
        submittedAt := 0, status := "pending_followup",
        followupCompleted := false, completedAt := none }], []⟩ 1 (some 7) 7
    { _id := 1, userId := "u1", update_date := "2024-01-10",
      description := some "work", challenges := none, plans := none,
      submittedAt := 0, status := "pending_followup",
      followupCompleted := false, completedAt := none }
    (by simp [uniqueByKey]) (by simp [uniqueIds]) (by simp [uniqueByKey])
    (by simp [uniqueIds]) (by rfl)

/-! ## Claim theorems: session completion and session persistence -/

/-- C5: the completion endpoint requires exactly 3 non-empty answers —
a wrong answer count or a blank answer is rejected with a 400 before
any state mutation (the returned state is the input state); a missing
session id is signalled with a 404, also before any mutation; and a
valid submission against an existing session with an existing
temporary update succeeds, setting the session's status to `completed`,
stamping the completion time, recording the answers and linking the
promoted work-update id. -/
theorem complete_followup_session_spec :
    (∀ (st : AppState) (sid : String) (answers : List String) (now : Int),
      answers.length ≠ 3 →
      complete_followup_session st sid answers now =
        (.error (400, "All 3 questions must be answered"), st)) ∧
    (∀ (st : AppState) (sid : String) (answers : List String) (now : Int),
      answers.length = 3 → answers.any (fun a => pyStrip a == "") = true →
      complete_followup_session st sid answers now =
        (.error (400, "All questions must have non-empty answers"), st)) ∧
    (∀ (st : AppState) (sid : String) (answers : List String) (now : Int),
      answers.length = 3 → answers.any (fun a => pyStrip a == "") = false →
      st.sessions.find? (fun s => s._id == sid) = none →
      complete_followup_session st sid answers now =
        (.error (404, "Session not found"), st)) ∧
    (∀ (st : AppState) (sid : String) (answers : List String) (now : Int)
        (session : SessionDoc) (tempId : Nat) (tu : WorkDoc),
      answers.length = 3 → answers.any (fun a => pyStrip a == "") = false →
      st.sessions.find? (fun s => s._id == sid) = some session →
      session.tempWorkUpdateId = some tempId →
      st.store.temp.find? (fun t => t._id == tempId) = some tu →
      ∃ pid st',
        complete_followup_session st sid answers now = (.ok pid, st') ∧
        st'.sessions.find? (fun s => s._id == sid) =
          some { session with
                  answers := answers
                  status := "completed"
                  completedAt := some now
                  workUpdateId := some pid }) := by
  refine ⟨?_, ?_, ?_, ?_⟩
  · intro st sid answers now h
    simp [complete_followup_session, h]
  · intro st sid answers now h3 hblank
    simp [complete_followup_session, h3, hblank]
  · intro st sid answers now h3 hblank hnone
    simp [complete_followup_session, h3, hblank, hnone]
  · intro st sid answers now session tempId tu h3 hblank hfs htid hft
    obtain ⟨s₁, s₂, hseq, hs₁, hps⟩ := find?_decomp hfs
    have hmove : move_temp_to_permanent st.store tempId (some now) now =
        .ok ((upsertByUserDate st.store.perm (promotedDoc tu (some now) now)).1,
          { temp := removeFirst (fun t => t._id == tempId) st.store.temp,
            perm := (upsertByUserDate st.store.perm (promotedDoc tu (some now) now)).2 }) := by
      simp [move_temp_to_permanent, hft]
    have hup₁ : updateFirst (fun s => s._id == sid)
        (fun s => { s with
                     answers := answers
                     status := "completed"
                     completedAt := some now }) st.sessions
        = s₁ ++ { session with
                   answers := answers
                   status := "completed"
                   completedAt := some now } :: s₂ := by
      rw [hseq]; exact updateFirst_append hs₁ hps
    have hup₂ : updateFirst (fun s => s._id == sid)
        (fun s => { s with
                     workUpdateId :=
                       some (upsertByUserDate st.store.perm (promotedDoc tu (some now) now)).1 })
        (s₁ ++ { session with
                  answers := answers
                  status := "completed"
                  completedAt := some now } :: s₂)
        = s₁ ++ { session with
                   answers := answers
                   status := "completed"
                   completedAt := some now
                   workUpdateId :=
                     some (upsertByUserDate st.store.perm (promotedDoc tu (some now) now)).1 }
            :: s₂ :=
      updateFirst_append hs₁ (by simpa using hps)
    refine ⟨(upsertByUserDate st.store.perm (promotedDoc tu (some now) now)).1,
      { sessions :=
          s₁ ++ { session with
                   answers := answers
                   status := "completed"
                   completedAt := some now
                   workUpdateId :=
                     some (upsertByUserDate st.store.perm (promotedDoc tu (some now) now)).1 }
              :: s₂,
        store := { temp := removeFirst (fun t => t._id == tempId) st.store.temp,
                   perm := (upsertByUserDate st.store.perm (promotedDoc tu (some now) now)).2 } },
      ?_, ?_⟩
    · rw [htid] at hup₁ hup₂
      simp [complete_followup_session, h3, hblank, hfs, htid, hft, hmove, hup₁, hup₂]
    · exact find?_append_cons hs₁ (by simpa using hps)

theorem maxByCreatedAt_eq_none {l : List SessionDoc} :
    maxByCreatedAt l = none ↔ l = [] := by
  cases l with
  | nil => simp [maxByCreatedAt]
  | cons s ss =>
    cases hr : maxByCreatedAt ss with
    | none => simp [maxByCreatedAt, hr]
    | some m =>
      simp only [maxByCreatedAt, hr]
      split <;> simp

theorem maxByCreatedAt_spec {l : List SessionDoc} {s : SessionDoc}
    (h : maxByCreatedAt l = some s) :
    s ∈ l ∧ ∀ t ∈ l, t.createdAt ≤ s.createdAt := by
  induction l generalizing s with
  | nil => simp [maxByCreatedAt] at h
  | cons d ds ih =>
    rw [maxByCreatedAt] at h
    cases hr : maxByCreatedAt ds with
    | none =>
      simp only [hr] at h
      have hnil : ds = [] := maxByCreatedAt_eq_none.mp hr
      subst hnil
      obtain rfl : d = s := by simpa using h
      exact ⟨by simp, by simp⟩
    | some m =>
      simp only [hr] at h
      obtain ⟨hm, hle⟩ := ih hr
      by_cases hgt : m.createdAt > d.createdAt
      · rw [if_pos hgt] at h
        obtain rfl : m = s := by simpa using h
        refine ⟨by simp [hm], ?_⟩
        intro t ht
        rcases List.mem_cons.mp ht with rfl | ht
        · omega
        · exact hle t ht
      · rw [if_neg hgt] at h
        obtain rfl : d = s := by simpa using h
        refine ⟨by simp, ?_⟩
        intro t ht
        rcases List.mem_cons.mp ht with rfl | ht
        · omega
        · have h1 := hle t ht
          simp only [gt_iff_lt, not_lt] at hgt
          omega

/-- Counterexample to C8 as stated: a persistence failure of the
fetch-pending operation is not re-raised — the source catches it and
returns `None`, the very value that means "no pending session", so a
failed lookup is indistinguishable from an empty one. -/
theorem get_pending_swallows_persistence_failure :
    get_pending_followup_session "u1" (.error "database connection lost") =
      get_pending_followup_session "u1" (.ok []) ∧
    get_pending_followup_session "u1" (.error "database connection lost") = none := by
  exact ⟨rfl, rfl⟩

/-- C8 (amended): the save-session and update-answers operations
re-raise a persistence failure to the caller (with the logged message),
and update-answers signals not-found on a zero modified count; the
fetch-pending operation, by contrast, catches persistence failures and
returns `none` — so it returns the most recently created `pending`
session of the user, and `none` exactly when no pending session exists
or the lookup failed.  No operation retries: each consumes its single
driver outcome. -/
theorem session_persistence_error_contract :
    (∀ (u sid : String) (qs : List String) (now : Int) (e : String),
      save_followup_session u sid qs now (fun _ => .error e) =
        .error ("Failed to save follow-up session: " ++ e)) ∧
    (∀ (u sid : String) (qs : List String) (now : Int),
      save_followup_session u sid qs now (fun _ => .ok ()) = .ok sid) ∧
    (∀ (sid : String) (ans : List String) (e : String),
      update_followup_answers sid ans (.error e) =
        .error ("Failed to update follow-up answers: " ++ e)) ∧
    (∀ (sid : String) (ans : List String),
      update_followup_answers sid ans (.ok 0) =
        .error ("Failed to update follow-up answers: Session " ++ sid ++ " not found")) ∧
    (∀ (sid : String) (ans : List String) (n : Nat), 0 < n →
      update_followup_answers sid ans (.ok n) = .ok ()) ∧
    (∀ (u e : String), get_pending_followup_session u (.error e) = none) ∧
    (∀ (u : String) (col : List SessionDoc),
      get_pending_followup_session u (.ok col) = none ↔
        ∀ s ∈ col, ¬(s.userId = u ∧ s.status = "pending")) ∧
    (∀ (u : String) (col : List SessionDoc) (s : SessionDoc),
      get_pending_followup_session u (.ok col) = some s →
        s ∈ col ∧ s.userId = u ∧ s.status = "pending" ∧
        ∀ t ∈ col, t.userId = u → t.status = "pending" → t.createdAt ≤ s.createdAt) := by
  refine ⟨fun _ _ _ _ _ => rfl, fun _ _ _ _ => rfl, fun _ _ _ => rfl, fun _ _ => rfl,
    ?_, fun _ _ => rfl, ?_, ?_⟩
  · intro sid ans n hn
    cases n with
    | zero => omega
    | succ k => rfl
  · intro u col
    rw [get_pending_followup_session, maxByCreatedAt_eq_none, List.filter_eq_nil_iff]
    constructor
    · intro h s hs hsm
      exact absurd (by simp [hsm.1, hsm.2]) (h s hs)
    · intro h s hs hmx
      simp only [Bool.and_eq_true, beq_iff_eq] at hmx
      exact h s hs hmx
  · intro u col s h
    rw [get_pending_followup_session] at h
    obtain ⟨hm, hle⟩ := maxByCreatedAt_spec h
    have hmem := List.mem_filter.mp hm
    have hprops : s.userId = u ∧ s.status = "pending" := by
      have := hmem.2
      simpa using this
    refine ⟨hmem.1, hprops.1, hprops.2, ?_⟩
    intro t ht htu hts
    exact hle t (List.mem_filter.mpr ⟨ht, by simp [htu, hts]⟩)
